import Mathlib

/-!
Shallow embedding of the mt5-trading-bot core (risk manager, strategies,
scheduler loops) over exact rational arithmetic, together with theorems
settling the spec claims.  Python floats are modelled as `ℚ`; Python
dictionaries that may be missing (`get_account_info`, `get_symbol_info`
returning falsy values) are modelled as `Option`; `try/except` blocks whose
handler returns a fixed fallback are modelled as explicit guards on the
arithmetic conditions (division by zero) that would raise in the source.
-/

namespace MT5Bot

/-- Python's builtin `round` (banker's rounding, half-to-even) on a rational,
as used by `round(position_size / lot_step)` in `risk_manager.py`. -/
def pyRound (q : ℚ) : ℤ :=
  let f : ℤ := ⌊q⌋
  let frac : ℚ := q - f
  if frac < 1/2 then f
  else if 1/2 < frac then f + 1
  else if f % 2 = 0 then f else f + 1

/-- Account snapshot, from `mt5_connector.get_account_info()` as consumed by
`risk_manager.py` (fields `balance`, `equity`, `profit`, `free_margin`,
`leverage`, `trade_allowed`). -/
structure AccountInfo where
  balance : ℚ
  equity : ℚ
  profit : ℚ
  free_margin : ℚ
  leverage : ℚ
  trade_allowed : Bool
  deriving DecidableEq

/-- Symbol specification, from `mt5_connector.get_symbol_info()` as consumed by
`risk_manager.py` (fields `point`, `contract_size`, `lot_step`, `minimum_lot`,
`maximum_lot`, `stops_level`, `trade_allowed`). -/
structure SymbolInfo where
  point : ℚ
  contract_size : ℚ
  lot_step : ℚ
  minimum_lot : ℚ
  maximum_lot : ℚ
  stops_level : ℚ
  trade_allowed : Bool
  deriving DecidableEq

/-- Position direction (`position['type']` is the string `'BUY'` or `'SELL'`). -/
inductive PosType where
  | buy
  | sell
  deriving DecidableEq

/-- An open position as returned by `mt5_connector.get_positions()` and
consumed by `risk_manager.py` / `multi_strategy_bot.py` (fields `ticket`,
`symbol`, `type`, `price_current`, `sl`, `comment`). -/
structure Position where
  ticket : ℕ
  symbol : String
  ptype : PosType
  price_current : ℚ
  sl : ℚ
  comment : String
  deriving DecidableEq

/-- The `RISK_SETTINGS` dictionary of `config.py`, restricted to the keys the
risk manager reads. -/
structure RiskSettings where
  risk_per_trade : ℚ
  max_daily_loss : ℚ
  max_drawdown : ℚ
  max_positions : ℕ
  trailing_stop : Bool
  trailing_stop_distance : ℚ
  deriving DecidableEq

/-- The concrete `RISK_SETTINGS` values of `config.py` (max_positions uses the
default `5` that `check_trading_allowed` supplies via `.get`). -/
def configRiskSettings : RiskSettings :=
  { risk_per_trade := 1/100
    max_daily_loss := 5/100
    max_drawdown := 10/100
    max_positions := 5
    trailing_stop := true
    trailing_stop_distance := 3 }

/-- The MT5 view a single risk-manager call observes: the account snapshot,
the open-position list and the symbol specification (each of the first and last
possibly unavailable, matching the `if not account_info` / `if not symbol_info`
guards of the source). -/
structure MarketView where
  account : Option AccountInfo
  positions : List Position
  symbol : Option SymbolInfo

/-- `RiskManager._check_daily_loss_limit`: `abs(min(0, profit)) >=
balance * max_daily_loss`. -/
def check_daily_loss_limit (rs : RiskSettings) (a : AccountInfo) : Bool :=
  |min 0 a.profit| ≥ a.balance * rs.max_daily_loss

/-- `RiskManager._check_max_drawdown`: `balance - equity >=
balance * max_drawdown`. -/
def check_max_drawdown (rs : RiskSettings) (a : AccountInfo) : Bool :=
  a.balance - a.equity ≥ a.balance * rs.max_drawdown

/-- `RiskManager.check_trading_allowed` (risk_manager.py lines 15-53).  The
function takes no strategy identity or per-strategy cap; its checks are, in
source order: account snapshot unavailable, `positions and len(positions) >=
max_positions`, daily-loss limit, max drawdown, account `trade_allowed`. -/
def check_trading_allowed (rs : RiskSettings) (v : MarketView) : Bool :=
  match v.account with
  | none => false
  | some a =>
    if v.positions ≠ [] ∧ rs.max_positions ≤ v.positions.length then false
    else if check_daily_loss_limit rs a then false
    else if check_max_drawdown rs a then false
    else if ¬ a.trade_allowed then false
    else true

/-- `RiskManager._apply_additional_risk_limits` (risk_manager.py lines
249-272).  A zero `leverage` or zero `contract_size` raises
`ZeroDivisionError` inside the method's own `try`, whose handler returns the
incoming `position_size` unchanged. -/
def apply_additional_risk_limits (rs : RiskSettings) (position_size : ℚ)
    (a : AccountInfo) (s : SymbolInfo) : ℚ :=
  if a.leverage = 0 ∨ s.contract_size = 0 then position_size
  else
    let free_margin := a.free_margin
    let required_margin := position_size * s.contract_size / a.leverage
    let ps1 :=
      if free_margin * (1/2) < required_margin then
        min position_size (free_margin * (1/2) * a.leverage / s.contract_size)
      else position_size
    let max_risk_amount := a.balance * rs.risk_per_trade
    let max_lots_by_value := max_risk_amount * 10 / s.contract_size
    min ps1 max_lots_by_value

/-- The rounding-and-clamping stage of `RiskManager.calculate_position_size`
(lines 97-104): `round(position_size / lot_step) * lot_step` then
`max(min_lot, min(max_lot, position_size))`. -/
def position_size_clamped (s : SymbolInfo) (raw : ℚ) : ℚ :=
  let stepped : ℚ := (pyRound (raw / s.lot_step) : ℚ) * s.lot_step
  max s.minimum_lot (min s.maximum_lot stepped)

/-- `RiskManager.calculate_position_size` (risk_manager.py lines 55-113).
`jpy` is `symbol.endswith('JPY')`.  The guards on `pip_size`,
`stop_loss_pips * pip_value` and `lot_step` model the `ZeroDivisionError`
paths, all caught by the outer `except` which returns `0.0`. -/
def calculate_position_size (rs : RiskSettings) (account : Option AccountInfo)
    (jpy : Bool) (symbol : Option SymbolInfo) (entry_price stop_loss_price : ℚ)
    (risk_amount? : Option ℚ) : ℚ :=
  match account with
  | none => 0
  | some a =>
    let risk_amount := risk_amount?.getD (a.balance * rs.risk_per_trade)
    match symbol with
    | none => 0
    | some s =>
      let pip_size := if jpy then s.point * 100 else s.point
      if pip_size = 0 then 0
      else
        let stop_loss_pips := |entry_price - stop_loss_price| / pip_size
        let pip_value := s.contract_size * pip_size
        if stop_loss_pips * pip_value = 0 then 0
        else if s.lot_step = 0 then 0
        else
          let raw := risk_amount / (stop_loss_pips * pip_value)
          apply_additional_risk_limits rs (position_size_clamped s raw) a s

/-- Result dictionary of `RiskManager.validate_trade`. -/
structure ValidationResult where
  valid : Bool
  errors : List String
  warnings : List String
  adjusted_volume : ℚ
  deriving DecidableEq

/-- Result of `RiskManager._check_margin_requirements` (lines 291-312): a zero
`leverage` raises inside the helper's own `try`, whose handler returns
`sufficient=False`. -/
def check_margin_sufficient (v : MarketView) (volume : ℚ) : Bool :=
  match v.account, v.symbol with
  | some a, some s =>
    if a.leverage = 0 then false
    else a.free_margin ≥ volume * s.contract_size / a.leverage
  | _, _ => false

/-- `RiskManager._validate_sl_tp_distance` (lines 274-289). -/
def validate_sl_tp_distance (v : MarketView) (entry_price sl_tp_price : ℚ) :
    Bool :=
  match v.symbol with
  | none => false
  | some s => |entry_price - sl_tp_price| ≥ s.stops_level * s.point

/-- Python truthiness of an optional float (`if stop_loss and entry_price`):
`None` and `0.0` are falsy. -/
def truthy : Option ℚ → Bool
  | none => false
  | some x => x ≠ 0

/-- `RiskManager.validate_trade` (risk_manager.py lines 115-198).  Note that
the lot-step re-stepping at lines 172-175 compares and steps the ORIGINAL
`volume`, overwriting any min/max adjustment made at lines 164-169.  A zero
`lot_step` raises `ZeroDivisionError` at line 172; the outer handler then
flips `valid` to `False` and appends an error, keeping the warnings and
`adjusted_volume` accumulated so far. -/
def validate_trade (rs : RiskSettings) (v : MarketView) (volume : ℚ)
    (entry_price stop_loss take_profit : Option ℚ) : ValidationResult :=
  if ¬ check_trading_allowed rs v then
    { valid := false, errors := ["Trading not allowed due to risk limits"],
      warnings := [], adjusted_volume := volume }
  else
    match v.symbol with
    | none =>
      { valid := false, errors := ["Invalid symbol"], warnings := [],
        adjusted_volume := volume }
    | some s =>
      if ¬ s.trade_allowed then
        { valid := false, errors := ["Trading not allowed for symbol"],
          warnings := [], adjusted_volume := volume }
      else
        let vol1 : ℚ × List String :=
          if volume < s.minimum_lot then
            (s.minimum_lot, ["Volume adjusted to minimum"])
          else if s.maximum_lot < volume then
            (s.maximum_lot, ["Volume adjusted to maximum"])
          else (volume, [])
        if s.lot_step = 0 then
          { valid := false, errors := ["Validation error"],
            warnings := vol1.2, adjusted_volume := vol1.1 }
        else
          let stepped : ℚ := (pyRound (volume / s.lot_step) : ℚ) * s.lot_step
          let vol2 : ℚ × List String :=
            if stepped ≠ volume then
              (stepped, vol1.2 ++ ["Volume adjusted to lot step"])
            else vol1
          let w3 : List String :=
            if truthy stop_loss ∧ truthy entry_price ∧
                ¬ validate_sl_tp_distance v (entry_price.getD 0)
                  (stop_loss.getD 0) then
              ["Stop loss too close to entry price"]
            else []
          let w4 : List String :=
            if truthy take_profit ∧ truthy entry_price ∧
                ¬ validate_sl_tp_distance v (entry_price.getD 0)
                  (take_profit.getD 0) then
              ["Take profit too close to entry price"]
            else []
          if ¬ check_margin_sufficient v vol2.1 then
            { valid := false, errors := ["Insufficient margin for trade"],
              warnings := vol2.2 ++ w3 ++ w4, adjusted_volume := vol2.1 }
          else
            { valid := true, errors := [],
              warnings := vol2.2 ++ w3 ++ w4, adjusted_volume := vol2.1 }

/-- Candidate stop of `RiskManager._update_position_trailing_stop`: the price
trailed by `trailing_distance_pips` pips in the favorable direction. -/
def trailing_new_sl (s : SymbolInfo) (jpy : Bool) (dist : ℚ) (pt : PosType)
    (price : ℚ) : ℚ :=
  let pip_size := if jpy then s.point * 100 else s.point
  match pt with
  | .buy => price - dist * pip_size
  | .sell => price + dist * pip_size

/-- Condition under which `_update_position_trailing_stop` calls
`modify_position`: the stop is unset (`current_sl == 0`) or the candidate
strictly improves it. -/
def trailing_modifies (s : SymbolInfo) (jpy : Bool) (dist : ℚ) (pt : PosType)
    (price sl : ℚ) : Bool :=
  match pt with
  | .buy => sl = 0 ∨ sl < trailing_new_sl s jpy dist .buy price
  | .sell => sl = 0 ∨ trailing_new_sl s jpy dist .sell price < sl

/-- `RiskManager._update_position_trailing_stop` (risk_manager.py lines
314-346), expressed as the position's stop-loss after one pass; an
unavailable symbol specification makes the method return without modifying. -/
def update_position_trailing_stop (symbol : Option SymbolInfo) (jpy : Bool)
    (dist : ℚ) (pt : PosType) (price sl : ℚ) : ℚ :=
  match symbol with
  | none => sl
  | some s =>
    if trailing_modifies s jpy dist pt price sl then
      trailing_new_sl s jpy dist pt price
    else sl

/-- Successive stop-loss values of one position across a sequence of
trailing-stop update passes, one pass per observed current price; the head is
the initial stop. -/
def trail_states (symbol : Option SymbolInfo) (jpy : Bool) (dist : ℚ)
    (pt : PosType) (sl : ℚ) : List ℚ → List ℚ
  | [] => [sl]
  | p :: ps =>
    sl :: trail_states symbol jpy dist pt
      (update_position_trailing_stop symbol jpy dist pt p sl) ps

/-- One OHLC bar as consumed by the strategies (`high`, `low`, `close`; the
open and volume columns are not read by the embedded strategies). -/
structure Bar where
  high : ℚ
  low : ℚ
  close : ℚ
  deriving DecidableEq

/-- A directional signal (`'BUY'` / `'SELL'`). -/
inductive Sig where
  | buy
  | sell
  deriving DecidableEq

/-- String form of a signal, as interpolated into the order comment
`f"{strategy_name}_{signal}"`. -/
def sigName : Sig → String
  | .buy => "BUY"
  | .sell => "SELL"

/-- EMA smoothing factor of `Series.ewm(span=period, adjust=False)`. -/
def emaAlpha (period : ℕ) : ℚ := 2 / (period + 1)

/-- Value of `ewm(span=period, adjust=False).mean()` at the final index:
`e_0 = c_0`, `e_i = alpha * c_i + (1 - alpha) * e_(i-1)`.  The pandas series
value at index `i` depends only on the closes up to `i`, so the value at
index `-2` is `emaLast` of the series without its last element. -/
def emaLast (period : ℕ) : List ℚ → Option ℚ
  | [] => none
  | c :: rest =>
    some (rest.foldl (fun e x => emaAlpha period * x + (1 - emaAlpha period) * e) c)

/-- True-range terms of `BaseStrategy._calculate_atr` for all bars after the
first, each relative to the previous bar's close. -/
def trueRangesAux (prev : Bar) : List Bar → List ℚ
  | [] => []
  | b :: bs =>
    max (b.high - b.low) (max |b.high - prev.close| |b.low - prev.close|) ::
      trueRangesAux b bs

/-- The true-range series of `BaseStrategy._calculate_atr`.  At index 0 the
two shifted terms are NaN and `pandas.concat(...).max(axis=1)` skips them,
leaving `high - low`. -/
def trueRanges : List Bar → List ℚ
  | [] => []
  | b :: bs => (b.high - b.low) :: trueRangesAux b bs

/-- ATR at the final index: `rolling(window=period).mean()` of the true
range, which is NaN (`none`) while fewer than `period` rows exist. -/
def atrLast (period : ℕ) (bars : List Bar) : Option ℚ :=
  let tr := trueRanges bars
  if period = 0 ∨ tr.length < period then none
  else some (((tr.reverse.take period).sum) / period)

/-- Parameters of `EMACrossoverStrategy`.  `signal_cooldown` is stored in the
parameter dictionary by the callers but `get_signal` never reads it: the
base-class `validate_signal` path checks a fixed five-minute interval. -/
structure EmaParams where
  ema_period : ℕ
  confirmation_candles : ℕ
  atr_period : ℕ
  min_atr_filter : ℚ
  signal_cooldown : ℚ
  deriving DecidableEq

/-- The default parameter dictionary of `EMACrossoverStrategy.__init__`
(ema_crossover.py lines 18-25; no `signal_cooldown` key there, recorded as
0). -/
def emaDefaultParams : EmaParams :=
  { ema_period := 5, confirmation_candles := 1, atr_period := 14,
    min_atr_filter := 1/10000, signal_cooldown := 0 }

/-- The `ema_crossover` configuration of
`MultiStrategyTradingBot.initialize_strategies` (multi_strategy_bot.py lines
87-97), merged over the defaults. -/
def emaMultiBotParams : EmaParams :=
  { ema_period := 8, confirmation_candles := 0, atr_period := 14,
    min_atr_filter := 1/100000, signal_cooldown := 10 }

/-- `EMACrossoverStrategy.get_minimum_bars`:
`max(50, ema_period * 3, atr_period * 2)`. -/
def ema_min_bars (p : EmaParams) : ℕ :=
  max 50 (max (p.ema_period * 3) (p.atr_period * 2))

/-- `BaseStrategy._is_signal_too_recent` called with its DEFAULT
`min_interval_minutes=5`: the configured `signal_cooldown` parameter is not
consulted.  `last` is the instance's `last_signal_time` (None before any
accepted signal), `now` the current wall-clock time in seconds. -/
def is_signal_too_recent (last : Option ℚ) (now : ℚ) : Bool :=
  match last with
  | none => false
  | some lt => now - lt < 5 * 60

/-- `BaseStrategy.validate_signal` for a signal that is already `'BUY'` or
`'SELL'`: length check then the too-recent check. -/
def ema_validate_signal (p : EmaParams) (last : Option ℚ) (now : ℚ)
    (dataLen : ℕ) : Bool :=
  if dataLen < ema_min_bars p then false
  else ¬ is_signal_too_recent last now

/-- Boolean form of `all(close[i] >= close[i-1] ...)` over consecutive pairs. -/
def nondecreasing : List ℚ → Bool
  | [] => true
  | [_] => true
  | a :: b :: rest => a ≤ b && nondecreasing (b :: rest)

/-- Boolean form of `all(close[i] <= close[i-1] ...)` over consecutive pairs. -/
def nonincreasing : List ℚ → Bool
  | [] => true
  | [_] => true
  | a :: b :: rest => b ≤ a && nonincreasing (b :: rest)

/-- `EMACrossoverStrategy._check_trend_confirmation` over the last
`confirmation_candles + 1` closes. -/
def check_trend_confirmation (cc : ℕ) (closes : List ℚ) (s : Sig) : Bool :=
  if closes.length < cc + 1 then false
  else
    let recent := (closes.reverse.take (cc + 1)).reverse
    match s with
    | .buy => nondecreasing recent
    | .sell => nonincreasing recent

/-- `data['close'].iloc[-2]` (0 default is unreachable under the minimum-bars
guard). -/
def emaPrevClose (data : List Bar) : ℚ :=
  (((data.map Bar.close).dropLast).getLast?).getD 0

/-- `data['close'].iloc[-1]`. -/
def emaLastClose (data : List Bar) : ℚ :=
  ((data.map Bar.close).getLast?).getD 0

/-- `data['ema'].iloc[-2]`. -/
def emaPrevEma (p : EmaParams) (data : List Bar) : ℚ :=
  (emaLast p.ema_period ((data.map Bar.close).dropLast)).getD 0

/-- `data['ema'].iloc[-1]`. -/
def emaLastEma (p : EmaParams) (data : List Bar) : ℚ :=
  (emaLast p.ema_period (data.map Bar.close)).getD 0

/-- The volatility filter `last_candle['atr'] < min_atr_filter`
(ema_crossover.py line 51); a NaN ATR compares False in pandas, so `none`
does not filter. -/
def ema_atr_filtered (p : EmaParams) (data : List Bar) : Bool :=
  match atrLast p.atr_period data with
  | none => false
  | some a => a < p.min_atr_filter

/-- `EMACrossoverStrategy.get_signal` (ema_crossover.py lines 32-90).  The
method reads `last_signal_time` but never writes it (updates happen only in
`TradingBot.check_entry_signals` via `update_signal_history` after an
executed trade), so it is a pure function of the window, the stored
last-signal time and the current time. -/
def ema_get_signal (p : EmaParams) (last : Option ℚ) (now : ℚ)
    (data : List Bar) : Option Sig :=
  if data.length < ema_min_bars p then none
  else if ema_atr_filtered p data then none
  else if emaPrevClose data ≤ emaPrevEma p data ∧
      emaLastEma p data < emaLastClose data then
    if 1 < p.confirmation_candles ∧
        ¬ check_trend_confirmation p.confirmation_candles
          (data.map Bar.close) .buy then none
    else if ema_validate_signal p last now data.length then some .buy
    else none
  else if emaPrevEma p data ≤ emaPrevClose data ∧
      emaLastClose data < emaLastEma p data then
    if 1 < p.confirmation_candles ∧
        ¬ check_trend_confirmation p.confirmation_candles
          (data.map Bar.close) .sell then none
    else if ema_validate_signal p last now data.length then some .sell
    else none
  else none

/-- Parameters of `MomentumBreakoutStrategy` read by `get_signal`
(`volume_multiplier` is configured but unread there). -/
structure MomentumParams where
  momentum_period : ℕ
  volatility_period : ℕ
  breakout_threshold : ℚ
  signal_cooldown : ℚ
  deriving DecidableEq

/-- The default parameter dictionary of `MomentumBreakoutStrategy.__init__`. -/
def momentumDefaultParams : MomentumParams :=
  { momentum_period := 5, volatility_period := 10,
    breakout_threshold := 1/2, signal_cooldown := 2 }

/-- `close.pct_change(mp)` at the final index:
`(c_n - c_(n-mp)) / c_(n-mp)`; NaN (`none`) when fewer than `mp + 1` closes
exist.  A zero base close yields a non-finite value in pandas and never a
signal; modelled as `none`. -/
def pct_change_last (mp : ℕ) (closes : List ℚ) : Option ℚ :=
  match (closes.reverse).get? 0, (closes.reverse).get? mp with
  | some cur, some base => if mp = 0 ∨ base = 0 then none else some ((cur - base) / base)
  | _, _ => none

/-- The directional decision of `MomentumBreakoutStrategy.get_signal` (lines
44-80) after the length and cooldown guards.  The configured threshold is
divided by 100 twice in the source (once at line 60, again in the
comparisons).  When the ATR is positive and the current close is zero, the
normalization divides by zero and the surrounding `except` returns None. -/
def momentum_signal_core (p : MomentumParams) (data : List Bar) : Option Sig :=
  let closes := data.map Bar.close
  match pct_change_last p.momentum_period closes with
  | none => none
  | some momentum =>
    let cur_close := (closes.getLast?).getD 0
    let vol := atrLast p.volatility_period data
    let decide_with : ℚ → Option Sig := fun normalized =>
      let thr := p.breakout_threshold / 100 / 100
      if thr < momentum ∧ 1/10 < normalized then some .buy
      else if momentum < -thr ∧ 1/10 < normalized then some .sell
      else none
    match vol with
    | some v =>
      if 0 < v then
        if cur_close = 0 then none
        else decide_with (|momentum| / (v / cur_close))
      else decide_with |momentum|
    | none => decide_with |momentum|

/-- `MomentumBreakoutStrategy.get_signal` (momentum_breakout.py lines 31-84)
with its mutable `last_signal_time` (initialized to `0` in `__init__`) made
explicit: returns the signal and the updated last-signal time, which moves to
`now` exactly when a signal is returned. -/
def momentum_get_signal (p : MomentumParams) (last now : ℚ)
    (data : List Bar) : Option Sig × ℚ :=
  if data.length < 20 then (none, last)
  else if now - last < p.signal_cooldown then (none, last)
  else
    match momentum_signal_core p data with
    | some s => (some s, now)
    | none => (none, last)

/-- One observable action of a `TradingBot.run_main_loop` tick. -/
inductive TickEvent where
  | trailingModify (ticket : ℕ)
  | exitClose (ticket : ℕ)
  | entryOrder
  deriving DecidableEq

/-- The `modify_position` calls of `RiskManager.update_trailing_stops`
(risk_manager.py lines 200-216), in position-list order. `symOf`/`jpyOf`
give each position's symbol specification and JPY-ness. -/
def update_trailing_stops_events (rs : RiskSettings)
    (symOf : String → Option SymbolInfo) (jpyOf : String → Bool)
    (positions : List Position) : List TickEvent :=
  if ¬ rs.trailing_stop then []
  else
    (positions.filter fun pos =>
      match symOf pos.symbol with
      | none => false
      | some s =>
        trailing_modifies s (jpyOf pos.symbol) rs.trailing_stop_distance
          pos.ptype pos.price_current pos.sl).map
      fun pos => .trailingModify pos.ticket

/-- The `close_position` calls of `TradingBot.check_exit_signals` (main.py
lines 285-304), one per open position whose strategy `should_exit` is true. -/
def check_exit_signals_events (shouldExit : Position → Bool)
    (positions : List Position) : List TickEvent :=
  (positions.filter shouldExit).map fun pos => .exitClose pos.ticket

/-- The order submission of `TradingBot.check_entry_signals` (main.py lines
215-283): risk gate, strategy signal, current price, stop/target, sizing
(`calculate_position_size` when a truthy stop exists, else the configured
lot), validation, submission. -/
def check_entry_signals_events (rs : RiskSettings) (v : MarketView)
    (signal : Option Sig) (price : Option ℚ) (stop_loss take_profit : Option ℚ)
    (default_lot : ℚ) (jpy : Bool) : List TickEvent :=
  if ¬ check_trading_allowed rs v then []
  else
    match signal with
    | none => []
    | some _ =>
      match price with
      | none => []
      | some entry =>
        let volume :=
          if truthy stop_loss then
            calculate_position_size rs v.account jpy v.symbol entry
              (stop_loss.getD 0) none
          else default_lot
        let val := validate_trade rs v volume (some entry) stop_loss take_profit
        if ¬ val.valid then [] else [.entryOrder]

/-- The observable action sequence of one `run_main_loop` tick body (main.py
lines 159-185): `update_trailing_stops`, then `check_exit_signals`, then
`check_entry_signals`. -/
def run_main_loop_tick_events (rs : RiskSettings)
    (symOf : String → Option SymbolInfo) (jpyOf : String → Bool)
    (v : MarketView) (shouldExit : Position → Bool) (signal : Option Sig)
    (price : Option ℚ) (stop_loss take_profit : Option ℚ) (default_lot : ℚ)
    (jpy : Bool) : List TickEvent :=
  update_trailing_stops_events rs symOf jpyOf v.positions ++
    check_exit_signals_events shouldExit v.positions ++
      check_entry_signals_events rs v signal price stop_loss take_profit
        default_lot jpy

/-- One strategy entry of `MultiStrategyTradingBot.strategies`. -/
structure StratConfig where
  name : String
  enabled : Bool
  max_positions : ℕ
  deriving DecidableEq

/-- Python's `str.startswith`, expressed on the underlying character lists. -/
def pyStartswith (s pre : String) : Bool :=
  pre.data.isPrefixOf s.data

/-- `MultiStrategyTradingBot.get_strategy_positions` (multi_strategy_bot.py
lines 325-342): open positions whose comment starts with the strategy name. -/
def get_strategy_positions (positions : List Position)
    (strategy_name : String) : List Position :=
  positions.filter fun pos => pyStartswith pos.comment strategy_name

/-- The order comment `f"{strategy_name}_{signal}"` of
`execute_strategy_trade`. -/
def mkComment (strategy_name : String) (s : Sig) : String :=
  strategy_name ++ "_" ++ sigName s

/-- The venue position resulting from a successfully filled strategy order. -/
def newPosition (ticket : ℕ) (strategy_name : String) (s : Sig) : Position :=
  { ticket := ticket, symbol := "XAUUSD",
    ptype := match s with | .buy => .buy | .sell => .sell,
    price_current := 0, sl := 0, comment := mkComment strategy_name s }

/-- One observable action of the per-strategy entry scan of
`run_multi_strategy_loop`. -/
inductive ScanEvent where
  | signalCall (strategy : String)
  | orderSubmit (strategy : String)
  deriving DecidableEq

/-- One iteration of the `for strategy_name, config in self.strategies`
loop of `run_multi_strategy_loop` (multi_strategy_bot.py lines 223-253):
skip when disabled; skip (before any signal generation) when
`len(get_strategy_positions(name)) >= max_positions`; otherwise invoke
`get_signal` and, on a signal, attempt `execute_strategy_trade`.  `signalOf`
abstracts each strategy's `get_signal` on this tick's shared window and
`execOK` whether `execute_strategy_trade` succeeds (price fetch, risk gate
and order placement; the risk-gate call inside it is analysed separately); a
successful trade's position is visible to the later strategies' fresh
`get_positions` fetches within the same scan. -/
def scan_step (signalOf : String → Option Sig) (execOK : String → Bool)
    (st : List Position × List ScanEvent) (c : StratConfig) :
    List Position × List ScanEvent :=
  if ¬ c.enabled then st
  else if c.max_positions ≤ (get_strategy_positions st.1 c.name).length then st
  else
    match signalOf c.name with
    | none => (st.1, st.2 ++ [.signalCall c.name])
    | some s =>
      if execOK c.name then
        (st.1 ++ [newPosition st.1.length c.name s],
         st.2 ++ [.signalCall c.name, .orderSubmit c.name])
      else (st.1, st.2 ++ [.signalCall c.name])

/-- The whole per-tick entry scan over the configured strategies, returning
the final open-position list and the emitted actions. -/
def run_multi_strategy_scan (signalOf : String → Option Sig)
    (execOK : String → Bool) (cfgs : List StratConfig)
    (positions : List Position) : List Position × List ScanEvent :=
  cfgs.foldl (scan_step signalOf execOK) (positions, [])

/-! Concrete inputs used to instantiate the theorems below. -/

/-- An account with a small free margin relative to its balance. -/
def c1Account : AccountInfo :=
  { balance := 10000, equity := 10000, profit := 0, free_margin := 10,
    leverage := 1, trade_allowed := true }

/-- A symbol specification with `min_lot = 0.1`, `max_lot = 100`,
`lot_step = 0.1`. -/
def c1Symbol : SymbolInfo :=
  { point := 1/100, contract_size := 100, lot_step := 1/10,
    minimum_lot := 1/10, maximum_lot := 100, stops_level := 10,
    trade_allowed := true }

/-- A healthy account with ample free margin. -/
def c2Account : AccountInfo :=
  { balance := 10000, equity := 10000, profit := 0, free_margin := 10000,
    leverage := 100, trade_allowed := true }

/-- A symbol specification whose `lot_step = 0.05` does not divide its
`min_lot = 0.1` boundary cases: used with a requested volume of `0.07`. -/
def c2Symbol : SymbolInfo :=
  { point := 1/100, contract_size := 100000, lot_step := 1/20,
    minimum_lot := 1/10, maximum_lot := 100, stops_level := 10,
    trade_allowed := true }

/-- Market view for the `validate_trade` evaluation. -/
def c2View : MarketView :=
  { account := some c2Account, positions := [], symbol := some c2Symbol }

/-- An account whose instantaneous loss (600) is past the daily-loss
threshold (5% of 10000 = 500) while the drawdown threshold (10% = 1000, vs
600) is not reached. -/
def lossAccount : AccountInfo :=
  { balance := 10000, equity := 9400, profit := -600, free_margin := 9400,
    leverage := 100, trade_allowed := true }

/-- The same account after its open profit recovered to zero. -/
def recoveredAccount : AccountInfo :=
  { balance := 10000, equity := 10000, profit := 0, free_margin := 10000,
    leverage := 100, trade_allowed := true }

/-- View at the moment of the daily-loss breach. -/
def lossView : MarketView :=
  { account := some lossAccount, positions := [], symbol := none }

/-- View after the recovery. -/
def recoveredView : MarketView :=
  { account := some recoveredAccount, positions := [], symbol := none }

/-- Two open positions owned (by comment tag) by strategy `alpha`. -/
def cappedPositions : List Position :=
  [{ ticket := 1, symbol := "XAUUSD", ptype := .buy, price_current := 100,
     sl := 0, comment := "alpha_BUY" },
   { ticket := 2, symbol := "XAUUSD", ptype := .buy, price_current := 101,
     sl := 0, comment := "alpha_SELL" }]

/-- View in which strategy `alpha` is at a per-strategy cap of 2 while every
global condition is healthy. -/
def cappedView : MarketView :=
  { account := some recoveredAccount, positions := cappedPositions,
    symbol := none }

/-- A 50-bar window: 49 flat bars at 100 then one bar at 101, crossing above
the EMA with ample true range. -/
def stepUpBars : List Bar :=
  List.replicate 49 { high := 100, low := 100, close := 100 } ++
    [{ high := 101, low := 101, close := 101 }]

/-- A 50-bar window: 49 flat bars at 100 then one bar at `100 + 10^-6`,
crossing above the EMA with a true range far below the default
`min_atr_filter`. -/
def c9Bars : List Bar :=
  List.replicate 49 { high := 100, low := 100, close := 100 } ++
    [{ high := 100 + 1/1000000, low := 100 + 1/1000000,
       close := 100 + 1/1000000 }]

/-- A 20-bar window whose last close jumps from 100 to 102, giving the
momentum strategy a clear buy breakout. -/
def momBars : List Bar :=
  List.replicate 19 { high := 100, low := 100, close := 100 } ++
    [{ high := 102, low := 102, close := 102 }]

/-- One open buy position with an unset stop, used for the tick-trace
instantiation. -/
def c7Position : Position :=
  { ticket := 1, symbol := "XAUUSD", ptype := .buy, price_current := 100,
    sl := 0, comment := "ema" }

/-- View for the tick-trace instantiation: healthy account, one open
position, tradeable symbol. -/
def c7View : MarketView :=
  { account := some c2Account, positions := [c7Position],
    symbol := some c1Symbol }

/-- The tick trace of the instantiated main loop: a trailing-stop
modification, an exit close, then one entry order. -/
def c7Events : List TickEvent :=
  run_main_loop_tick_events configRiskSettings (fun _ => some c1Symbol)
    (fun _ => false) c7View (fun _ => true) (some .buy) (some 1)
    (some (99/100)) none (1/100) false

/-- Strategy configuration at its cap in `cappedPositions`. -/
def alphaCfg : StratConfig :=
  { name := "alpha", enabled := true, max_positions := 2 }

/-- A second strategy configuration, below its cap. -/
def betaCfg : StratConfig :=
  { name := "beta", enabled := true, max_positions := 3 }

/-- A market view with no account snapshot and no symbol specification. -/
def emptyView : MarketView :=
  { account := none, positions := [], symbol := none }

/-! Theorems. -/

/-- The additional risk limits of `_apply_additional_risk_limits` never
increase a position size. -/
theorem apply_additional_risk_limits_le (rs : RiskSettings) (x : ℚ)
    (a : AccountInfo) (s : SymbolInfo) :
    apply_additional_risk_limits rs x a s ≤ x := by
  unfold apply_additional_risk_limits
  dsimp only
  split_ifs with h h2
  · exact le_refl x
  · exact le_trans (min_le_left _ _) (min_le_left _ _)
  · exact min_le_left _ _

/-- C1 (amended): the volume produced by the rounding-and-clamping stage of
`calculate_position_size` lies within `[min_lot, max_lot]` (given
`min_lot ≤ max_lot`) and is a multiple of `lot_step` (given that `min_lot`
and `max_lot` are themselves multiples of `lot_step`); the subsequent
additional risk limits can only lower the final returned volume, and (per
the counterexample) may push it below `min_lot` and off the lot grid. -/
theorem position_size_clamp_stage_bounds (rs : RiskSettings) (a : AccountInfo)
    (s : SymbolInfo) (raw : ℚ)
    (hm : ∃ m : ℤ, s.minimum_lot = m * s.lot_step)
    (hM : ∃ m : ℤ, s.maximum_lot = m * s.lot_step)
    (hmM : s.minimum_lot ≤ s.maximum_lot) :
    s.minimum_lot ≤ position_size_clamped s raw ∧
    position_size_clamped s raw ≤ s.maximum_lot ∧
    (∃ k : ℤ, position_size_clamped s raw = k * s.lot_step) ∧
    apply_additional_risk_limits rs (position_size_clamped s raw) a s ≤
      position_size_clamped s raw := by
  obtain ⟨m, hm⟩ := hm
  obtain ⟨M, hM⟩ := hM
  refine ⟨le_max_left _ _, max_le hmM (min_le_left _ _), ?_,
    apply_additional_risk_limits_le rs _ a s⟩
  unfold position_size_clamped
  dsimp only
  rcases le_total ((pyRound (raw / s.lot_step) : ℚ) * s.lot_step)
      s.maximum_lot with h | h
  · rw [min_eq_right h]
    rcases le_total s.minimum_lot
        ((pyRound (raw / s.lot_step) : ℚ) * s.lot_step) with h2 | h2
    · rw [max_eq_right h2]
      exact ⟨pyRound (raw / s.lot_step), rfl⟩
    · rw [max_eq_left h2]
      exact ⟨m, hm⟩
  · rw [min_eq_left h, max_eq_right hmM]
    exact ⟨M, hM⟩

/-- C1 (counterexample): with `min_lot = 0.1`, `lot_step = 0.1` and a small
free margin, `calculate_position_size` returns `0.05`, strictly below
`min_lot` (and off the lot grid): the margin cap of
`_apply_additional_risk_limits` runs after the rounding-and-clamping stage. -/
theorem calculate_position_size_below_min_lot :
    calculate_position_size configRiskSettings (some c1Account) false
      (some c1Symbol) 1 (99/100) none = 1/20 ∧
    ((1 : ℚ)/20) < c1Symbol.minimum_lot := by
  constructor
  · norm_num [calculate_position_size, apply_additional_risk_limits,
      position_size_clamped, pyRound, c1Account, c1Symbol, configRiskSettings,
      abs]
  · norm_num [c1Symbol]

/-- Witness instantiating `position_size_clamp_stage_bounds` at a concrete
symbol specification and raw size. -/
theorem position_size_clamp_stage_bounds_witness :
    (∃ m : ℤ, c1Symbol.minimum_lot = m * c1Symbol.lot_step) ∧
    (∃ m : ℤ, c1Symbol.maximum_lot = m * c1Symbol.lot_step) ∧
    c1Symbol.minimum_lot ≤ c1Symbol.maximum_lot ∧
    (c1Symbol.minimum_lot ≤ position_size_clamped c1Symbol 100 ∧
     position_size_clamped c1Symbol 100 ≤ c1Symbol.maximum_lot ∧
     (∃ k : ℤ, position_size_clamped c1Symbol 100 = k * c1Symbol.lot_step) ∧
     apply_additional_risk_limits configRiskSettings
       (position_size_clamped c1Symbol 100) c1Account c1Symbol ≤
         position_size_clamped c1Symbol 100) :=
  ⟨⟨1, by norm_num [c1Symbol]⟩, ⟨1000, by norm_num [c1Symbol]⟩,
   by norm_num [c1Symbol],
   position_size_clamp_stage_bounds configRiskSettings c1Account c1Symbol 100
     ⟨1, by norm_num [c1Symbol]⟩ ⟨1000, by norm_num [c1Symbol]⟩
     (by norm_num [c1Symbol])⟩

/-- C2: evaluating `validate_trade` at the failing input (requested volume
`0.07`, `min_lot = 0.1`, `lot_step = 0.05`, ample margin): the result is
`valid = true` with `adjusted_volume = 0.05 < min_lot`, because the lot-step
re-stepping at lines 172-175 steps the ORIGINAL volume and overwrites the
minimum-clamp adjustment recorded just above it. -/
theorem validate_trade_accepts_volume_below_min_lot :
    validate_trade configRiskSettings c2View (7/100) none none none =
      { valid := true, errors := [],
        warnings := ["Volume adjusted to minimum",
                     "Volume adjusted to lot step"],
        adjusted_volume := 1/20 } ∧
    ((1 : ℚ)/20) < c2Symbol.minimum_lot := by
  constructor
  · norm_num [validate_trade, check_trading_allowed, check_daily_loss_limit,
      check_max_drawdown, check_margin_sufficient, truthy, pyRound,
      c2View, c2Account, c2Symbol, configRiskSettings, abs]
  · norm_num [c2Symbol]

/-- The head of a trailing-stop state trace is the initial stop. -/
theorem trail_states_head (symbol : Option SymbolInfo) (jpy : Bool)
    (dist : ℚ) (pt : PosType) (sl : ℚ) (prices : List ℚ) :
    (trail_states symbol jpy dist pt sl prices).head? = some sl := by
  cases prices <;> rfl

/-- One Buy-side trailing update never lowers a positive stop, and keeps it
positive. -/
theorem update_buy_step (symbol : Option SymbolInfo) (jpy : Bool)
    (dist price sl : ℚ) (h : 0 < sl) :
    sl ≤ update_position_trailing_stop symbol jpy dist .buy price sl ∧
    0 < update_position_trailing_stop symbol jpy dist .buy price sl := by
  cases symbol with
  | none => exact ⟨le_refl _, h⟩
  | some s =>
    unfold update_position_trailing_stop
    dsimp only
    by_cases hc : trailing_modifies s jpy dist .buy price sl = true
    · rw [if_pos hc]
      unfold trailing_modifies at hc
      simp only [decide_eq_true_eq] at hc
      rcases hc with h0 | hlt
      · exact absurd h0 (ne_of_gt h)
      · exact ⟨le_of_lt hlt, lt_trans h hlt⟩
    · rw [if_neg hc]
      exact ⟨le_refl _, h⟩

/-- One Sell-side trailing update never raises a positive stop and, for a
positive price and nonnegative trailing distance, keeps it positive. -/
theorem update_sell_step (symbol : Option SymbolInfo) (jpy : Bool)
    (dist price sl : ℚ) (hpt : ∀ s ∈ symbol, 0 ≤ s.point) (hd : 0 ≤ dist)
    (hp : 0 < price) (h : 0 < sl) :
    update_position_trailing_stop symbol jpy dist .sell price sl ≤ sl ∧
    0 < update_position_trailing_stop symbol jpy dist .sell price sl := by
  cases symbol with
  | none => exact ⟨le_refl _, h⟩
  | some s =>
    have hpt' : 0 ≤ s.point := hpt s rfl
    have hnew : 0 < trailing_new_sl s jpy dist .sell price := by
      unfold trailing_new_sl
      dsimp only
      split_ifs <;> nlinarith
    unfold update_position_trailing_stop
    dsimp only
    by_cases hc : trailing_modifies s jpy dist .sell price sl = true
    · rw [if_pos hc]
      unfold trailing_modifies at hc
      simp only [decide_eq_true_eq] at hc
      rcases hc with h0 | hlt
      · exact absurd h0 (ne_of_gt h)
      · exact ⟨le_of_lt hlt, hnew⟩
    · rw [if_neg hc]
      exact ⟨le_refl _, h⟩

/-- Buy-side state traces are nondecreasing from a positive initial stop. -/
theorem trail_states_buy_chain (symbol : Option SymbolInfo) (jpy : Bool)
    (dist : ℚ) :
    ∀ (prices : List ℚ) (sl : ℚ), 0 < sl →
      List.Chain' (· ≤ ·) (trail_states symbol jpy dist .buy sl prices)
  | [], sl, _ => List.chain'_singleton sl
  | p :: ps, sl, h => by
    rw [trail_states]
    refine List.chain'_cons'.2 ⟨?_, ?_⟩
    · intro y hy
      rw [trail_states_head] at hy
      cases hy
      exact (update_buy_step symbol jpy dist p sl h).1
    · exact trail_states_buy_chain symbol jpy dist ps _
        (update_buy_step symbol jpy dist p sl h).2

/-- Sell-side state traces are nonincreasing from a positive initial stop
over positive prices. -/
theorem trail_states_sell_chain (symbol : Option SymbolInfo) (jpy : Bool)
    (dist : ℚ) (hpt : ∀ s ∈ symbol, 0 ≤ s.point) (hd : 0 ≤ dist) :
    ∀ (prices : List ℚ) (sl : ℚ), (∀ p ∈ prices, 0 < p) → 0 < sl →
      List.Chain' (fun a b => b ≤ a)
        (trail_states symbol jpy dist .sell sl prices)
  | [], sl, _, _ => List.chain'_singleton sl
  | p :: ps, sl, hp, h => by
    rw [trail_states]
    refine List.chain'_cons'.2 ⟨?_, ?_⟩
    · intro y hy
      rw [trail_states_head] at hy
      cases hy
      exact (update_sell_step symbol jpy dist p sl hpt hd
        (hp p (List.mem_cons_self p ps)) h).1
    · exact trail_states_sell_chain symbol jpy dist hpt hd ps _
        (fun q hq => hp q (List.mem_cons_of_mem p hq))
        (update_sell_step symbol jpy dist p sl hpt hd
          (hp p (List.mem_cons_self p ps)) h).2

/-- C3: across any sequence of trailing-stop update passes on a position
with an existing (positive) stop, the stop moves only in the risk-reducing
direction: for a Buy position the successive stop values never decrease, and
for a Sell position (with positive prices and a nonnegative pip distance)
they never increase; a pass whose candidate would loosen the stop leaves it
unchanged. -/
theorem trailing_stop_monotone (symbol : Option SymbolInfo) (jpy : Bool)
    (dist sl₀ : ℚ) (prices : List ℚ) (hsl : 0 < sl₀)
    (hpt : ∀ s ∈ symbol, 0 ≤ s.point) (hd : 0 ≤ dist)
    (hp : ∀ p ∈ prices, 0 < p) :
    List.Chain' (· ≤ ·) (trail_states symbol jpy dist .buy sl₀ prices) ∧
    List.Chain' (fun a b => b ≤ a)
      (trail_states symbol jpy dist .sell sl₀ prices) :=
  ⟨trail_states_buy_chain symbol jpy dist prices sl₀ hsl,
   trail_states_sell_chain symbol jpy dist hpt hd prices sl₀ hp hsl⟩

/-- Witness instantiating `trailing_stop_monotone` on a concrete symbol,
initial stop and price path. -/
theorem trailing_stop_monotone_witness :
    (0 : ℚ) < 1 ∧ (∀ s ∈ some c1Symbol, 0 ≤ s.point) ∧ (0 : ℚ) ≤ 3 ∧
    (∀ p ∈ [(5 : ℚ), 4, 6], 0 < p) ∧
    (List.Chain' (· ≤ ·)
      (trail_states (some c1Symbol) false 3 .buy 1 [(5 : ℚ), 4, 6]) ∧
     List.Chain' (fun a b => b ≤ a)
      (trail_states (some c1Symbol) false 3 .sell 1 [(5 : ℚ), 4, 6])) := by
  have hpt : ∀ s ∈ some c1Symbol, 0 ≤ s.point := by
    intro s hs
    cases hs
    norm_num [c1Symbol]
  have hp : ∀ p ∈ [(5 : ℚ), 4, 6], 0 < p := by
    intro p hpm
    simp only [List.mem_cons, List.not_mem_nil, or_false] at hpm
    rcases hpm with h | h | h <;> subst h <;> norm_num
  exact ⟨by norm_num, hpt, by norm_num, hp,
    trailing_stop_monotone (some c1Symbol) false 3 1 [(5 : ℚ), 4, 6]
      (by norm_num) hpt (by norm_num) hp⟩

/-- C4 (counterexample): with strategy `alpha` holding 2 open positions
(at the per-strategy cap of 2) and every global condition healthy,
`check_trading_allowed` returns `true`: the function has no strategy
parameters and performs no per-strategy count check. -/
theorem check_trading_allowed_ignores_strategy_cap :
    (get_strategy_positions cappedPositions "alpha").length = 2 ∧
    alphaCfg.max_positions ≤
      (get_strategy_positions cappedPositions "alpha").length ∧
    check_trading_allowed configRiskSettings cappedView = true := by
  refine ⟨by decide, by decide, ?_⟩
  norm_num [check_trading_allowed, cappedView, cappedPositions,
    recoveredAccount, configRiskSettings, check_daily_loss_limit,
    check_max_drawdown, abs]

/-- C4 (amended): `check_trading_allowed` takes no strategy identity or
per-strategy cap; it returns `true` exactly when an account snapshot is
available, the open-position list is empty or below the global cap, the
daily-loss limit (`abs(min(0, profit)) ≥ balance × max_daily_loss`) is not
reached, the drawdown limit (`balance − equity ≥ balance × max_drawdown`) is
not reached, and the account allows trading.  Per-strategy caps are enforced
by the multi-strategy scan itself, before signal generation. -/
theorem check_trading_allowed_characterization (rs : RiskSettings)
    (v : MarketView) :
    check_trading_allowed rs v = true ↔
      ∃ a, v.account = some a ∧
        ¬(v.positions ≠ [] ∧ rs.max_positions ≤ v.positions.length) ∧
        check_daily_loss_limit rs a = false ∧
        check_max_drawdown rs a = false ∧
        a.trade_allowed = true := by
  unfold check_trading_allowed
  cases v.account with
  | none => simp
  | some a => split_ifs <;> simp_all

/-- C5 (counterexample): a call at an account snapshot whose instantaneous
loss (600) breaches the daily-loss threshold (500) returns `false` for that
reason (drawdown not reached, no positions); a subsequent call after the
profit recovers to 0 returns `true` again — no breach state is latched. -/
theorem daily_loss_breach_not_latched :
    check_trading_allowed configRiskSettings lossView = false ∧
    check_daily_loss_limit configRiskSettings lossAccount = true ∧
    check_max_drawdown configRiskSettings lossAccount = false ∧
    check_trading_allowed configRiskSettings recoveredView = true := by
  refine ⟨?_, ?_, ?_, ?_⟩ <;>
    norm_num [check_trading_allowed, check_daily_loss_limit,
      check_max_drawdown, lossView, recoveredView, lossAccount,
      recoveredAccount, configRiskSettings, abs]

/-- C5 (amended): the daily-loss check is instantaneous and stateless —
`check_trading_allowed` is a pure function of the current snapshot, so
whatever earlier calls observed, a call whose snapshot passes all the
checks (loss back under threshold, drawdown under threshold, positions under
the global cap, trading allowed) returns `true`. -/
theorem check_trading_allowed_stateless_recovery (rs : RiskSettings)
    (v : MarketView) (a : AccountInfo) (hacc : v.account = some a)
    (hpos : ¬(v.positions ≠ [] ∧ rs.max_positions ≤ v.positions.length))
    (hdl : check_daily_loss_limit rs a = false)
    (hdd : check_max_drawdown rs a = false)
    (hta : a.trade_allowed = true) :
    check_trading_allowed rs v = true := by
  unfold check_trading_allowed
  rw [hacc]
  simp [hpos, hdl, hdd, hta]

/-- Witness instantiating `check_trading_allowed_stateless_recovery` at the
recovered account snapshot. -/
theorem check_trading_allowed_stateless_recovery_witness :
    recoveredView.account = some recoveredAccount ∧
    ¬(recoveredView.positions ≠ [] ∧
        configRiskSettings.max_positions ≤ recoveredView.positions.length) ∧
    check_daily_loss_limit configRiskSettings recoveredAccount = false ∧
    check_max_drawdown configRiskSettings recoveredAccount = false ∧
    recoveredAccount.trade_allowed = true ∧
    check_trading_allowed configRiskSettings recoveredView = true := by
  have h1 : recoveredView.account = some recoveredAccount := rfl
  have h2 : ¬(recoveredView.positions ≠ [] ∧
      configRiskSettings.max_positions ≤ recoveredView.positions.length) := by
    simp [recoveredView]
  have h3 : check_daily_loss_limit configRiskSettings recoveredAccount
      = false := by
    norm_num [check_daily_loss_limit, recoveredAccount, configRiskSettings,
      abs]
  have h4 : check_max_drawdown configRiskSettings recoveredAccount
      = false := by
    norm_num [check_max_drawdown, recoveredAccount, configRiskSettings]
  have h5 : recoveredAccount.trade_allowed = true := rfl
  exact ⟨h1, h2, h3, h4, h5,
    check_trading_allowed_stateless_recovery configRiskSettings recoveredView
      recoveredAccount h1 h2 h3 h4 h5⟩

/-- A trade gate failure (trading disallowed or missing symbol) yields
`valid = false` with a nonempty error list. -/
theorem validate_trade_failure (rs : RiskSettings) (v : MarketView)
    (volume : ℚ) (e s t : Option ℚ)
    (h : check_trading_allowed rs v = false ∨ v.symbol = none) :
    (validate_trade rs v volume e s t).valid = false ∧
    (validate_trade rs v volume e s t).errors ≠ [] := by
  unfold validate_trade
  cases hc : check_trading_allowed rs v with
  | false => simp
  | true =>
    rcases h with h | h
    · rw [hc] at h
      cases h
    · rw [h]
      simp

/-- C10: the risk manager fails closed on missing data — whenever the
account snapshot or the symbol specification is unavailable,
`calculate_position_size` returns `0`, `validate_trade` returns
`valid = false` with a nonempty error list, and (on a missing account)
`check_trading_allowed` returns `false`; no such call lets a trade
proceed. -/
theorem risk_checks_fail_closed (rs : RiskSettings) (v : MarketView)
    (volume : ℚ) (jpy : Bool) (entry stop : ℚ) (risk? : Option ℚ)
    (entry? sl? tp? : Option ℚ)
    (hmiss : v.account = none ∨ v.symbol = none) :
    calculate_position_size rs v.account jpy v.symbol entry stop risk? = 0 ∧
    (validate_trade rs v volume entry? sl? tp?).valid = false ∧
    (validate_trade rs v volume entry? sl? tp?).errors ≠ [] ∧
    (v.account = none → check_trading_allowed rs v = false) := by
  have hval : (validate_trade rs v volume entry? sl? tp?).valid = false ∧
      (validate_trade rs v volume entry? sl? tp?).errors ≠ [] := by
    apply validate_trade_failure
    rcases hmiss with h | h
    · left
      unfold check_trading_allowed
      rw [h]
    · right
      exact h
  have hsize : calculate_position_size rs v.account jpy v.symbol entry stop
      risk? = 0 := by
    rcases hmiss with h | h
    · rw [h]
      rfl
    · cases hacc : v.account with
      | none => rfl
      | some a =>
        unfold calculate_position_size
        rw [h]
  exact ⟨hsize, hval.1, hval.2, fun ha => by
    unfold check_trading_allowed
    rw [ha]⟩

/-- Witness instantiating `risk_checks_fail_closed` at a view with no
account snapshot. -/
theorem risk_checks_fail_closed_witness :
    (emptyView.account = none ∨ emptyView.symbol = none) ∧
    (calculate_position_size configRiskSettings emptyView.account false
      emptyView.symbol 1 (99/100) none = 0 ∧
    (validate_trade configRiskSettings emptyView 1 none none none).valid
      = false ∧
    (validate_trade configRiskSettings emptyView 1 none none none).errors
      ≠ [] ∧
    (emptyView.account = none →
      check_trading_allowed configRiskSettings emptyView = false)) :=
  ⟨Or.inl rfl,
   risk_checks_fail_closed configRiskSettings emptyView 1 false 1 (99/100)
     none none none none (Or.inl rfl)⟩

/-- C6 (counterexample): for the EMA crossover strategy as configured by the
multi-strategy bot (`signal_cooldown = 10`), two `get_signal` calls 1 second
apart on the same window both return `BUY`: `get_signal` never updates
`last_signal_time` itself, and the base-class validation it calls checks a
fixed five-minute interval rather than the configured cooldown. -/
theorem ema_cooldown_not_enforced :
    ema_get_signal emaMultiBotParams none 0 stepUpBars = some Sig.buy ∧
    ema_get_signal emaMultiBotParams none 1 stepUpBars = some Sig.buy ∧
    (1 : ℚ) - 0 < emaMultiBotParams.signal_cooldown := by
  refine ⟨?_, ?_, by norm_num [emaMultiBotParams]⟩ <;>
    norm_num [ema_get_signal, ema_min_bars, ema_atr_filtered, atrLast,
      trueRanges, trueRangesAux, emaPrevClose, emaLastClose, emaPrevEma,
      emaLastEma, emaLast, emaAlpha, ema_validate_signal,
      is_signal_too_recent, emaMultiBotParams, stepUpBars, List.replicate]

/-- A momentum `get_signal` call that returns a signal moves the cooldown
clock to the call time. -/
theorem momentum_state_of_signal (p : MomentumParams) (last now : ℚ)
    (data : List Bar)
    (h : (momentum_get_signal p last now data).1 ≠ none) :
    (momentum_get_signal p last now data).2 = now := by
  unfold momentum_get_signal at h ⊢
  split_ifs at h ⊢ with h1 h2
  · simp at h
  · simp at h
  · cases hc : momentum_signal_core p data with
    | none => rw [hc] at h; simp at h
    | some s => rfl

/-- C6 (amended): the momentum-breakout strategy, which keeps its cooldown
clock inside `get_signal`, enforces the configured `signal_cooldown`: two
successive calls less than `signal_cooldown` apart return at most one
non-None signal, and an accepted signal updates the clock.  (The EMA
crossover strategy does not: its `get_signal` leaves the clock to external
callers and its validation checks a fixed five-minute window — see the
counterexample.) -/
theorem momentum_cooldown_enforced (p : MomentumParams) (last t₁ t₂ : ℚ)
    (d₁ d₂ : List Bar) (h : t₂ - t₁ < p.signal_cooldown) :
    (momentum_get_signal p last t₁ d₁).1 = none ∨
    (momentum_get_signal p (momentum_get_signal p last t₁ d₁).2 t₂ d₂).1
      = none := by
  by_cases h1 : (momentum_get_signal p last t₁ d₁).1 = none
  · exact Or.inl h1
  · right
    rw [momentum_state_of_signal p last t₁ d₁ h1]
    unfold momentum_get_signal
    by_cases hd : d₂.length < 20
    · rw [if_pos hd]
    · rw [if_neg hd, if_pos h]

/-- Witness instantiating `momentum_cooldown_enforced`: the first call (at
t = 5, cooldown 2 expired) actually fires a Buy, and the second call one
second later is suppressed. -/
theorem momentum_cooldown_enforced_witness :
    ((6 : ℚ) - 5 < momentumDefaultParams.signal_cooldown) ∧
    (momentum_get_signal momentumDefaultParams 0 5 momBars).1
      = some Sig.buy ∧
    ((momentum_get_signal momentumDefaultParams 0 5 momBars).1 = none ∨
     (momentum_get_signal momentumDefaultParams
       (momentum_get_signal momentumDefaultParams 0 5 momBars).2 6
         momBars).1 = none) := by
  refine ⟨by norm_num [momentumDefaultParams], ?_,
    momentum_cooldown_enforced momentumDefaultParams 0 5 6 momBars momBars
      (by norm_num [momentumDefaultParams])⟩
  norm_num [momentum_get_signal, momentum_signal_core, pct_change_last,
    atrLast, trueRanges, trueRangesAux, momBars, momentumDefaultParams,
    List.replicate, abs, List.get?]

/-- C9 (counterexample): a 50-bar window whose close crosses from at-or-below
its 5-period EMA to above it, but whose true ranges are tiny, is filtered by
the `min_atr_filter` volatility check: `get_signal` returns `None`, not
`Buy`. -/
theorem ema_crossover_filtered_by_atr :
    ema_min_bars emaDefaultParams ≤ c9Bars.length ∧
    emaPrevClose c9Bars ≤ emaPrevEma emaDefaultParams c9Bars ∧
    emaLastEma emaDefaultParams c9Bars < emaLastClose c9Bars ∧
    ema_get_signal emaDefaultParams none 0 c9Bars = none := by
  refine ⟨?_, ?_, ?_, ?_⟩ <;>
    norm_num [ema_get_signal, ema_min_bars, ema_atr_filtered, atrLast,
      trueRanges, trueRangesAux, emaPrevClose, emaLastClose, emaPrevEma,
      emaLastEma, emaLast, emaAlpha, ema_validate_signal,
      is_signal_too_recent, emaDefaultParams, c9Bars, List.replicate, abs]

/-- The last close of the shortened window is the second-to-last close of
the full window. -/
theorem emaLastClose_dropLast (data : List Bar) :
    emaLastClose data.dropLast = emaPrevClose data := by
  unfold emaLastClose emaPrevClose
  rw [List.map_dropLast]

/-- The last EMA of the shortened window is the second-to-last EMA of the
full window (the EMA at an index depends only on the closes up to it). -/
theorem emaLastEma_dropLast (p : EmaParams) (data : List Bar) :
    emaLastEma p data.dropLast = emaPrevEma p data := by
  unfold emaLastEma emaPrevEma
  rw [List.map_dropLast]

/-- C9 (amended): for the default 5-period EMA crossover strategy on a
window of at least its minimum bar count whose close crosses from at-or-below
the EMA at bar n-1 to above it at bar n, PROVIDED the window passes the
`min_atr_filter` volatility check and no cooldown is pending, `get_signal`
returns `Buy` at bar n; and at the window ending at bar n-1 (where no sell
crossover occurred either) it returns `None` — unconditionally on that
window's ATR. -/
theorem ema_crossover_buy_fires (data : List Bar) (now : ℚ)
    (hlen : ema_min_bars emaDefaultParams ≤ data.length)
    (hatr : ema_atr_filtered emaDefaultParams data = false)
    (hprev : emaPrevClose data ≤ emaPrevEma emaDefaultParams data)
    (hlast : emaLastEma emaDefaultParams data < emaLastClose data)
    (hnosell : ¬(emaPrevEma emaDefaultParams data.dropLast ≤
                   emaPrevClose data.dropLast ∧
                 emaLastClose data.dropLast <
                   emaLastEma emaDefaultParams data.dropLast)) :
    ema_get_signal emaDefaultParams none now data = some Sig.buy ∧
    ema_get_signal emaDefaultParams none now data.dropLast = none := by
  constructor
  · have h1 : ¬(data.length < ema_min_bars emaDefaultParams) :=
      not_lt.2 hlen
    have hv : ema_validate_signal emaDefaultParams none now data.length
        = true := by
      simp [ema_validate_signal, is_signal_too_recent, h1]
    rw [ema_get_signal, if_neg h1, hatr, if_neg Bool.false_ne_true,
      if_pos ⟨hprev, hlast⟩,
      if_neg (fun hh => absurd hh.1 (by norm_num [emaDefaultParams])),
      if_pos hv]
  · rw [ema_get_signal]
    by_cases hl : data.dropLast.length < ema_min_bars emaDefaultParams
    · rw [if_pos hl]
    · rw [if_neg hl]
      cases hf : ema_atr_filtered emaDefaultParams data.dropLast with
      | true => rw [if_pos rfl]
      | false =>
        rw [if_neg Bool.false_ne_true,
          if_neg (fun hh => absurd hh.2 (by
            rw [emaLastEma_dropLast, emaLastClose_dropLast]
            exact not_lt.2 hprev)),
          if_neg hnosell]

/-- Witness instantiating `ema_crossover_buy_fires` on a concrete 50-bar
crossover window with ample true range. -/
theorem ema_crossover_buy_fires_witness :
    ema_min_bars emaDefaultParams ≤ stepUpBars.length ∧
    ema_atr_filtered emaDefaultParams stepUpBars = false ∧
    emaPrevClose stepUpBars ≤ emaPrevEma emaDefaultParams stepUpBars ∧
    emaLastEma emaDefaultParams stepUpBars < emaLastClose stepUpBars ∧
    ¬(emaPrevEma emaDefaultParams stepUpBars.dropLast ≤
        emaPrevClose stepUpBars.dropLast ∧
      emaLastClose stepUpBars.dropLast <
        emaLastEma emaDefaultParams stepUpBars.dropLast) ∧
    (ema_get_signal emaDefaultParams none 0 stepUpBars = some Sig.buy ∧
     ema_get_signal emaDefaultParams none 0 stepUpBars.dropLast = none) := by
  have hlen : ema_min_bars emaDefaultParams ≤ stepUpBars.length := by
    norm_num [ema_min_bars, emaDefaultParams, stepUpBars, List.replicate]
  have hatr : ema_atr_filtered emaDefaultParams stepUpBars = false := by
    norm_num [ema_atr_filtered, atrLast, trueRanges, trueRangesAux,
      emaDefaultParams, stepUpBars, List.replicate, abs]
  have hprev : emaPrevClose stepUpBars ≤
      emaPrevEma emaDefaultParams stepUpBars := by
    norm_num [emaPrevClose, emaPrevEma, emaLast, emaAlpha, emaDefaultParams,
      stepUpBars, List.replicate]
  have hlast : emaLastEma emaDefaultParams stepUpBars <
      emaLastClose stepUpBars := by
    norm_num [emaLastClose, emaLastEma, emaLast, emaAlpha, emaDefaultParams,
      stepUpBars, List.replicate]
  have hnosell : ¬(emaPrevEma emaDefaultParams stepUpBars.dropLast ≤
      emaPrevClose stepUpBars.dropLast ∧
      emaLastClose stepUpBars.dropLast <
      emaLastEma emaDefaultParams stepUpBars.dropLast) := by
    norm_num [emaPrevClose, emaPrevEma, emaLastClose, emaLastEma, emaLast,
      emaAlpha, emaDefaultParams, stepUpBars, List.replicate]
  exact ⟨hlen, hatr, hprev, hlast, hnosell,
    ema_crossover_buy_fires stepUpBars 0 hlen hatr hprev hlast hnosell⟩

/-- Trailing-stop events are never entry orders. -/
theorem trailing_events_not_entry (rs : RiskSettings)
    (symOf : String → Option SymbolInfo) (jpyOf : String → Bool)
    (positions : List Position) :
    ∀ e ∈ update_trailing_stops_events rs symOf jpyOf positions,
      e ≠ TickEvent.entryOrder := by
  intro e he
  unfold update_trailing_stops_events at he
  split_ifs at he
  · obtain ⟨p, hp, rfl⟩ := List.mem_map.1 he
    simp
  · exact absurd he (List.not_mem_nil e)

/-- Exit-scan events are never entry orders. -/
theorem exit_events_not_entry (shouldExit : Position → Bool)
    (positions : List Position) :
    ∀ e ∈ check_exit_signals_events shouldExit positions,
      e ≠ TickEvent.entryOrder := by
  intro e he
  obtain ⟨p, _, rfl⟩ := List.mem_map.1 he
  simp

/-- Entry-scan events are always entry orders. -/
theorem entry_events_entry (rs : RiskSettings) (v : MarketView)
    (signal : Option Sig) (price : Option ℚ)
    (stop_loss take_profit : Option ℚ) (default_lot : ℚ) (jpy : Bool) :
    ∀ e ∈ check_entry_signals_events rs v signal price stop_loss take_profit
        default_lot jpy, e = TickEvent.entryOrder := by
  intro e he
  unfold check_entry_signals_events at he
  cases signal with
  | none =>
    split_ifs at he <;> simp at he
  | some s =>
    cases price with
    | none =>
      split_ifs at he <;> simp at he
    | some entry =>
      dsimp only at he
      split_ifs at he <;> simp_all

/-- C7: within one tick of `run_main_loop`, every trailing-stop update and
every exit close strictly precedes every entry-order submission in the
tick's event trace: an event at index `i` that is an entry order comes after
any event at index `j` that is not. -/
theorem tick_exits_before_entries (rs : RiskSettings)
    (symOf : String → Option SymbolInfo) (jpyOf : String → Bool)
    (v : MarketView) (shouldExit : Position → Bool) (signal : Option Sig)
    (price : Option ℚ) (stop_loss take_profit : Option ℚ)
    (default_lot : ℚ) (jpy : Bool) (i j : ℕ)
    (hj : j < (run_main_loop_tick_events rs symOf jpyOf v shouldExit signal
      price stop_loss take_profit default_lot jpy).length)
    (hie : (run_main_loop_tick_events rs symOf jpyOf v shouldExit signal
      price stop_loss take_profit default_lot jpy)[i]?
        = some TickEvent.entryOrder)
    (hje : (run_main_loop_tick_events rs symOf jpyOf v shouldExit signal
      price stop_loss take_profit default_lot jpy)[j]?
        ≠ some TickEvent.entryOrder) :
    j < i := by
  have hE : run_main_loop_tick_events rs symOf jpyOf v shouldExit signal
      price stop_loss take_profit default_lot jpy =
      (update_trailing_stops_events rs symOf jpyOf v.positions ++
        check_exit_signals_events shouldExit v.positions) ++
        check_entry_signals_events rs v signal price stop_loss take_profit
          default_lot jpy := rfl
  rw [hE] at hj hie hje
  set A := update_trailing_stops_events rs symOf jpyOf v.positions with hA
  set B := check_exit_signals_events shouldExit v.positions with hB
  set C := check_entry_signals_events rs v signal price stop_loss take_profit
    default_lot jpy with hC
  have hAB : ∀ e ∈ A ++ B, e ≠ TickEvent.entryOrder := by
    intro e he
    rcases List.mem_append.1 he with h | h
    · exact trailing_events_not_entry rs symOf jpyOf v.positions e h
    · exact exit_events_not_entry shouldExit v.positions e h
  have hige : (A ++ B).length ≤ i := by
    by_contra hcon
    push_neg at hcon
    rw [List.getElem?_append_left hcon] at hie
    exact hAB _ (List.getElem?_mem hie) rfl
  have hjlt : j < (A ++ B).length := by
    by_contra hcon
    push_neg at hcon
    rw [List.getElem?_append_right hcon] at hje
    have hj' : j - (A ++ B).length < C.length := by
      rw [List.length_append] at hj
      omega
    cases hx : C[j - (A ++ B).length]? with
    | none =>
      rw [List.getElem?_eq_none_iff] at hx
      omega
    | some e =>
      have he : e = TickEvent.entryOrder :=
        entry_events_entry rs v signal price stop_loss take_profit
          default_lot jpy e (List.getElem?_mem hx)
      rw [hx, he] at hje
      exact hje rfl
  omega

/-- Witness instantiating `tick_exits_before_entries` on a concrete tick
whose trace is a trailing modification, an exit close and an entry order, at
indices 2 (entry) and 1 (exit). -/
theorem tick_exits_before_entries_witness :
    c7Events = [TickEvent.trailingModify 1, TickEvent.exitClose 1,
      TickEvent.entryOrder] ∧
    (1 : ℕ) < c7Events.length ∧
    c7Events[2]? = some TickEvent.entryOrder ∧
    c7Events[1]? ≠ some TickEvent.entryOrder ∧
    (1 : ℕ) < 2 := by
  have hev : run_main_loop_tick_events configRiskSettings
      (fun _ => some c1Symbol) (fun _ => false) c7View (fun _ => true)
      (some .buy) (some 1) (some (99/100)) none (1/100) false =
      [TickEvent.trailingModify 1, TickEvent.exitClose 1,
       TickEvent.entryOrder] := by
    norm_num [run_main_loop_tick_events, update_trailing_stops_events,
      trailing_modifies, trailing_new_sl, check_exit_signals_events,
      check_entry_signals_events, check_trading_allowed,
      check_daily_loss_limit, check_max_drawdown, truthy, validate_trade,
      check_margin_sufficient, validate_sl_tp_distance,
      calculate_position_size, apply_additional_risk_limits,
      position_size_clamped, pyRound, c7View, c7Position, c2Account,
      c1Symbol, configRiskSettings, abs]
  refine ⟨hev, by rw [show c7Events = _ from hev]; norm_num,
    by rw [show c7Events = _ from hev]; rfl,
    by rw [show c7Events = _ from hev]; simp, ?_⟩
  exact tick_exits_before_entries configRiskSettings (fun _ => some c1Symbol)
    (fun _ => false) c7View (fun _ => true) (some .buy) (some 1)
    (some (99/100)) none (1/100) false 2 1
    (by rw [hev]; norm_num)
    (by rw [hev]; rfl)
    (by rw [hev]; simp)

/-- Per-strategy position counts add over list append. -/
theorem get_strategy_positions_append (positions ps : List Position)
    (n : String) :
    (get_strategy_positions (positions ++ ps) n).length =
      (get_strategy_positions positions n).length +
        (get_strategy_positions ps n).length := by
  unfold get_strategy_positions
  rw [List.filter_append, List.length_append]

/-- Shape of one scan step: it appends at most one position (owned, by
comment, by the processed strategy) and only that strategy's events, and a
disabled or at-cap strategy contributes nothing at all. -/
theorem scan_step_characterization (signalOf : String → Option Sig)
    (execOK : String → Bool) (st : List Position × List ScanEvent)
    (c : StratConfig) :
    ∃ ps es, (scan_step signalOf execOK st c).1 = st.1 ++ ps ∧
      (scan_step signalOf execOK st c).2 = st.2 ++ es ∧
      (∀ p ∈ ps, ∃ s : Sig, p.comment = mkComment c.name s) ∧
      (∀ e ∈ es, e = ScanEvent.signalCall c.name ∨
        e = ScanEvent.orderSubmit c.name) ∧
      ps.length ≤ 1 ∧
      (c.max_positions ≤ (get_strategy_positions st.1 c.name).length →
        ps = [] ∧ es = []) := by
  unfold scan_step
  by_cases h1 : c.enabled = true
  · rw [if_neg (fun hh => hh h1)]
    by_cases h2 : c.max_positions ≤ (get_strategy_positions st.1 c.name).length
    · rw [if_pos h2]
      exact ⟨[], [], by simp, by simp, by simp, by simp, by simp,
        fun _ => ⟨rfl, rfl⟩⟩
    · rw [if_neg h2]
      cases hs : signalOf c.name with
      | none =>
        exact ⟨[], [ScanEvent.signalCall c.name], by simp, rfl, by simp,
          by simp, by simp, fun hcap => absurd hcap h2⟩
      | some s =>
        dsimp only
        by_cases he : execOK c.name = true
        · rw [if_pos he]
          refine ⟨[newPosition st.1.length c.name s],
            [ScanEvent.signalCall c.name, ScanEvent.orderSubmit c.name],
            rfl, rfl, ?_, ?_, by simp, fun hcap => absurd hcap h2⟩
          · intro p hp
            simp only [List.mem_singleton] at hp
            exact ⟨s, by rw [hp]; rfl⟩
          · intro e hee
            simp only [List.mem_cons, List.not_mem_nil, or_false] at hee
            exact hee
        · rw [if_neg he]
          exact ⟨[], [ScanEvent.signalCall c.name], by simp, rfl, by simp,
            by simp, by simp, fun hcap => absurd hcap h2⟩
  · rw [if_pos h1]
    exact ⟨[], [], by simp, by simp, by simp, by simp, by simp,
      fun _ => ⟨rfl, rfl⟩⟩

/-- Once a uniquely-named strategy is at its cap, the entry scan emits no
signal-call and no order-submit event for it (positions only accumulate
during the scan, so the cap stays reached). -/
theorem scan_skip_aux (signalOf : String → Option Sig)
    (execOK : String → Bool) (c : StratConfig) :
    ∀ (cfgs : List StratConfig) (positions : List Position)
      (events : List ScanEvent),
      (∀ c' ∈ cfgs, c'.name = c.name → c' = c) →
      c.max_positions ≤ (get_strategy_positions positions c.name).length →
      ∀ e ∈ (cfgs.foldl (scan_step signalOf execOK) (positions, events)).2,
        e ∈ events ∨ (e ≠ ScanEvent.signalCall c.name ∧
          e ≠ ScanEvent.orderSubmit c.name) := by
  intro cfgs
  induction cfgs with
  | nil =>
    intro positions events _ _ e he
    exact Or.inl he
  | cons c' cfgs ih =>
    intro positions events hu hcap e he
    rw [List.foldl_cons] at he
    obtain ⟨ps, es, hp1, hp2, hmem, hes, hlen1, hskip⟩ :=
      scan_step_characterization signalOf execOK (positions, events) c'
    have hst : scan_step signalOf execOK (positions, events) c' =
        (positions ++ ps, events ++ es) := Prod.ext_iff.2 ⟨hp1, hp2⟩
    rw [hst] at he
    have hcap' : c.max_positions ≤
        (get_strategy_positions (positions ++ ps) c.name).length := by
      rw [get_strategy_positions_append]
      omega
    have hu' : ∀ x ∈ cfgs, x.name = c.name → x = c :=
      fun x hx => hu x (List.mem_cons_of_mem _ hx)
    rcases ih (positions ++ ps) (events ++ es) hu' hcap' e he with hin | hgood
    · rcases List.mem_append.1 hin with hin | hin
      · exact Or.inl hin
      · by_cases hcc : c' = c
        · subst hcc
          rw [(hskip hcap).2] at hin
          exact absurd hin (List.not_mem_nil e)
        · have hne : c'.name ≠ c.name :=
            fun hn => hcc (hu c' (List.mem_cons_self _ _) hn)
          rcases hes e hin with rfl | rfl <;>
            exact Or.inr (by simp [hne])
    · exact Or.inr hgood

/-- The per-strategy count bound is preserved by the whole entry scan, given
unique strategy names and no ownership-tag prefix collisions. -/
theorem scan_bound_aux (signalOf : String → Option Sig)
    (execOK : String → Bool) (c : StratConfig) :
    ∀ (cfgs : List StratConfig) (positions : List Position)
      (events : List ScanEvent),
      (∀ c' ∈ cfgs, c'.name = c.name → c' = c) →
      (∀ c' ∈ cfgs, c' ≠ c → ∀ s : Sig,
        pyStartswith (mkComment c'.name s) c.name = false) →
      (get_strategy_positions positions c.name).length ≤ c.max_positions →
      (get_strategy_positions
        (cfgs.foldl (scan_step signalOf execOK) (positions, events)).1
          c.name).length ≤ c.max_positions := by
  intro cfgs
  induction cfgs with
  | nil =>
    intro positions events _ _ hcap
    exact hcap
  | cons c' cfgs ih =>
    intro positions events hu hpre hcap
    rw [List.foldl_cons]
    obtain ⟨ps, es, hp1, hp2, hmem, hes, hlen1, hskip⟩ :=
      scan_step_characterization signalOf execOK (positions, events) c'
    have hst : scan_step signalOf execOK (positions, events) c' =
        (positions ++ ps, events ++ es) := Prod.ext_iff.2 ⟨hp1, hp2⟩
    rw [hst]
    have hu' : ∀ x ∈ cfgs, x.name = c.name → x = c :=
      fun x hx => hu x (List.mem_cons_of_mem _ hx)
    have hpre' : ∀ x ∈ cfgs, x ≠ c → ∀ s : Sig,
        pyStartswith (mkComment x.name s) c.name = false :=
      fun x hx => hpre x (List.mem_cons_of_mem _ hx)
    apply ih (positions ++ ps) (events ++ es) hu' hpre'
    rw [get_strategy_positions_append]
    by_cases hcc : c' = c
    · subst hcc
      by_cases hcapped :
          c'.max_positions ≤ (get_strategy_positions positions c'.name).length
      · rw [(hskip hcapped).1]
        simpa using hcap
      · have hfl : (get_strategy_positions ps c'.name).length ≤ ps.length :=
          List.length_filter_le _ _
        omega
    · have hne : c' ≠ c := hcc
      have hzero : (get_strategy_positions ps c.name).length = 0 := by
        rw [List.length_eq_zero]
        unfold get_strategy_positions
        rw [List.filter_eq_nil_iff]
        intro p hp
        obtain ⟨s, hcom⟩ := hmem p hp
        rw [hcom, hpre c' (List.mem_cons_self _ _) hne s]
        exact Bool.false_ne_true
      omega

/-- C8: in the multi-strategy entry scan, a strategy whose owned-position
count has reached its `max_positions` is skipped entirely — no
`get_signal` call and no order submission happen for it — and consequently a
strategy's owned-position count never exceeds its per-strategy maximum
across the scan (hypotheses: strategy names are unique and no other
strategy's order comment starts with this strategy's name). -/
theorem strategy_cap_enforced (signalOf : String → Option Sig)
    (execOK : String → Bool) (cfgs : List StratConfig)
    (positions : List Position) (c : StratConfig)
    (hu : ∀ c' ∈ cfgs, c'.name = c.name → c' = c)
    (hpre : ∀ c' ∈ cfgs, c' ≠ c → ∀ s : Sig,
      pyStartswith (mkComment c'.name s) c.name = false) :
    (c.max_positions ≤ (get_strategy_positions positions c.name).length →
      ScanEvent.signalCall c.name ∉
        (run_multi_strategy_scan signalOf execOK cfgs positions).2 ∧
      ScanEvent.orderSubmit c.name ∉
        (run_multi_strategy_scan signalOf execOK cfgs positions).2) ∧
    ((get_strategy_positions positions c.name).length ≤ c.max_positions →
      (get_strategy_positions
        (run_multi_strategy_scan signalOf execOK cfgs positions).1
          c.name).length ≤ c.max_positions) := by
  constructor
  · intro hcap
    constructor <;> intro hin <;>
      rcases scan_skip_aux signalOf execOK c cfgs positions [] hu hcap _ hin
        with h | h
    · exact absurd h (List.not_mem_nil _)
    · exact h.1 rfl
    · exact absurd h (List.not_mem_nil _)
    · exact h.2 rfl
  · intro hcap
    exact scan_bound_aux signalOf execOK c cfgs positions [] hu hpre hcap

/-- Witness instantiating `strategy_cap_enforced`: strategy `alpha` at its
cap of 2 among two uniquely-named strategies that all emit Buy signals and
execute successfully. -/
theorem strategy_cap_enforced_witness :
    (∀ c' ∈ [alphaCfg, betaCfg], c'.name = alphaCfg.name → c' = alphaCfg) ∧
    (∀ c' ∈ [alphaCfg, betaCfg], c' ≠ alphaCfg → ∀ s : Sig,
      pyStartswith (mkComment c'.name s) alphaCfg.name = false) ∧
    ((alphaCfg.max_positions ≤
        (get_strategy_positions cappedPositions alphaCfg.name).length →
      ScanEvent.signalCall alphaCfg.name ∉
        (run_multi_strategy_scan (fun _ => some Sig.buy) (fun _ => true)
          [alphaCfg, betaCfg] cappedPositions).2 ∧
      ScanEvent.orderSubmit alphaCfg.name ∉
        (run_multi_strategy_scan (fun _ => some Sig.buy) (fun _ => true)
          [alphaCfg, betaCfg] cappedPositions).2) ∧
     ((get_strategy_positions cappedPositions alphaCfg.name).length ≤
        alphaCfg.max_positions →
      (get_strategy_positions
        (run_multi_strategy_scan (fun _ => some Sig.buy) (fun _ => true)
          [alphaCfg, betaCfg] cappedPositions).1
            alphaCfg.name).length ≤ alphaCfg.max_positions)) := by
  have hu : ∀ c' ∈ [alphaCfg, betaCfg], c'.name = alphaCfg.name →
      c' = alphaCfg := by
    intro c' hc' hn
    simp only [List.mem_cons, List.not_mem_nil, or_false] at hc'
    rcases hc' with rfl | rfl
    · rfl
    · exact absurd hn (by simp [alphaCfg, betaCfg])
  have hpre : ∀ c' ∈ [alphaCfg, betaCfg], c' ≠ alphaCfg → ∀ s : Sig,
      pyStartswith (mkComment c'.name s) alphaCfg.name = false := by
    intro c' hc' hne s
    simp only [List.mem_cons, List.not_mem_nil, or_false] at hc'
    rcases hc' with rfl | rfl
    · exact absurd rfl hne
    · cases s <;> decide
  exact ⟨hu, hpre,
    strategy_cap_enforced (fun _ => some Sig.buy) (fun _ => true)
      [alphaCfg, betaCfg] cappedPositions alphaCfg hu hpre⟩

end MT5Bot
